import Mathlib

/-!
Verification development for the CVAT annotation pipeline.

The repository converts spatial annotation data (keypoints and bounding
boxes of tracked objects) between a flat CSV form, a COCO-style JSON
model, and a CVAT 1.1 XML track model.  This file gives a shallow
embedding of the pure computational core of the sources:

* `src/auto_kpts_bbox.py` — keypoints-to-bounding-box derivation and the
  COCO bbox file builder (`keypoints_to_bboxes`,
  `build_coco_bbox_from_keypoints_json`);
* `src/convert_json_bbox.py` — the CSV/JSON readers feeding the CVAT XML
  track writer (`parse_csv`, `parse_json`, `coco_keypoints_to_pairs`,
  `flatten_points_xy`, `build_cvat_xml`);
* `src/convert_json_keypoints.py` — the CSV keypoints reader and the
  keypoints XML writer (`read_csv_annotations`, `convert_to_cvat_xml`);
* `src/merge_bbox_keypoints.py` — the keypoints/bbox merger.

Coordinates are modelled as rationals; CSV cells as a small inductive
datatype separating missing, blank, malformed and parseable fields;
fallible parsing as `Except`.
-/

/-- Splits a flat COCO keypoint list `[x0,y0,v0, x1,y1,v1, ...]` into its
complete `(x, y, v)` triples, dropping any trailing incomplete chunk.
This mirrors the slicing `keypoints[0::3]` / `[1::3]` / `[2::3]` followed
by `zip` truncation used in `keypoints_to_bboxes`, and the complete-triple
stepping used by the other readers and writers. -/
def triples : List ℚ → List (ℚ × ℚ × ℚ)
  | x :: y :: v :: rest => (x, y, v) :: triples rest
  | _ => []

/-- Python `min` over a nonempty list (`0` as an unused default for the
empty list, which the sources never reach). -/
def pyMin : List ℚ → ℚ
  | [] => 0
  | x :: xs => xs.foldl min x

/-- Python `max` over a nonempty list (`0` as an unused default). -/
def pyMax : List ℚ → ℚ
  | [] => 0
  | x :: xs => xs.foldl max x

lemma foldl_min_le_init (l : List ℚ) : ∀ a : ℚ, l.foldl min a ≤ a := by
  induction l with
  | nil => intro a; simp
  | cons x xs ih =>
    intro a
    simpa using le_trans (ih (min a x)) (min_le_left a x)

lemma foldl_min_le_mem (l : List ℚ) : ∀ (a x : ℚ), x ∈ l → l.foldl min a ≤ x := by
  induction l with
  | nil => intro a x hx; simp at hx
  | cons y ys ih =>
    intro a x hx
    rcases List.mem_cons.1 hx with h | h
    · subst h
      simpa using le_trans (foldl_min_le_init ys (min a x)) (min_le_right a x)
    · simpa using ih (min a y) x h

lemma foldl_min_mem (l : List ℚ) : ∀ a : ℚ, l.foldl min a = a ∨ l.foldl min a ∈ l := by
  induction l with
  | nil => intro a; left; rfl
  | cons y ys ih =>
    intro a
    rcases ih (min a y) with h | h
    · rcases min_choice a y with hc | hc
      · left; simpa [h] using hc
      · right; rw [List.foldl_cons, h, hc]; exact List.mem_cons_self y ys
    · right; exact List.mem_cons_of_mem y (by simpa using h)

lemma init_le_foldl_max (l : List ℚ) : ∀ a : ℚ, a ≤ l.foldl max a := by
  induction l with
  | nil => intro a; simp
  | cons x xs ih =>
    intro a
    simpa using le_trans (le_max_left a x) (ih (max a x))

lemma mem_le_foldl_max (l : List ℚ) : ∀ (a x : ℚ), x ∈ l → x ≤ l.foldl max a := by
  induction l with
  | nil => intro a x hx; simp at hx
  | cons y ys ih =>
    intro a x hx
    rcases List.mem_cons.1 hx with h | h
    · subst h
      simpa using le_trans (le_max_right a x) (init_le_foldl_max ys (max a x))
    · simpa using ih (max a y) x h

lemma foldl_max_mem (l : List ℚ) : ∀ a : ℚ, l.foldl max a = a ∨ l.foldl max a ∈ l := by
  induction l with
  | nil => intro a; left; rfl
  | cons y ys ih =>
    intro a
    rcases ih (max a y) with h | h
    · rcases max_choice a y with hc | hc
      · left; simpa [h] using hc
      · right; rw [List.foldl_cons, h, hc]; exact List.mem_cons_self y ys
    · right; exact List.mem_cons_of_mem y (by simpa using h)

lemma pyMin_mem (l : List ℚ) (h : l ≠ []) : pyMin l ∈ l := by
  cases l with
  | nil => exact absurd rfl h
  | cons x xs =>
    rcases foldl_min_mem xs x with hx | hx
    · simp [pyMin, hx]
    · exact List.mem_cons_of_mem x (by simpa [pyMin] using hx)

lemma pyMin_le (l : List ℚ) (x : ℚ) (h : x ∈ l) : pyMin l ≤ x := by
  cases l with
  | nil => simp at h
  | cons y ys =>
    rcases List.mem_cons.1 h with hx | hx
    · subst hx; simpa [pyMin] using foldl_min_le_init ys x
    · simpa [pyMin] using foldl_min_le_mem ys y x hx

lemma pyMax_mem (l : List ℚ) (h : l ≠ []) : pyMax l ∈ l := by
  cases l with
  | nil => exact absurd rfl h
  | cons x xs =>
    rcases foldl_max_mem xs x with hx | hx
    · simp [pyMax, hx]
    · exact List.mem_cons_of_mem x (by simpa [pyMax] using hx)

lemma le_pyMax (l : List ℚ) (x : ℚ) (h : x ∈ l) : x ≤ pyMax l := by
  cases l with
  | nil => simp at h
  | cons y ys =>
    rcases List.mem_cons.1 h with hx | hx
    · subst hx; simpa [pyMax] using init_le_foldl_max ys x
    · simpa [pyMax] using mem_le_foldl_max ys y x hx

/-- Result record of `keypoints_to_bboxes` in `src/auto_kpts_bbox.py`. -/
structure CocoBbox where
  image_id : ℤ
  category_id : ℤ
  bbox : List ℚ
  area : ℚ
  iscrowd : ℕ
  id : ℤ
deriving DecidableEq

/-- The keypoint triples of a flat keypoint list that the sources treat as
visible (`v > 0`). -/
def visiblePoints (keypoints : List ℚ) : List (ℚ × ℚ × ℚ) :=
  (triples keypoints).filter fun t => 0 < t.2.2

/-- Embedding of `keypoints_to_bboxes` (`src/auto_kpts_bbox.py`, lines
50-76): filter keypoints to those with `v > 0`; if none are visible return
`None`, otherwise return the COCO record whose `bbox` spans the visible
min/max coordinates and whose `area` is `width * height`. -/
def keypoints_to_bboxes (keypoints : List ℚ)
    (image_id category_id annotation_id : ℤ) : Option CocoBbox :=
  let vis := visiblePoints keypoints
  let visible_x := vis.map fun t => t.1
  let visible_y := vis.map fun t => t.2.1
  if visible_x = [] ∨ visible_y = [] then none
  else
    let x_min := pyMin visible_x
    let y_min := pyMin visible_y
    let x_max := pyMax visible_x
    let y_max := pyMax visible_y
    some { image_id := image_id
           category_id := category_id
           bbox := [x_min, y_min, x_max - x_min, y_max - y_min]
           area := (x_max - x_min) * (y_max - y_min)
           iscrowd := 0
           id := annotation_id }

/-- C2: for every keypoint list with at least one visible point
(`v > 0`), `keypoints_to_bboxes` returns a record whose `bbox` is the
axis-aligned box whose corners are exactly the minimum and maximum of the
visible points' coordinates — every visible point lies inside the box and
each of the four extremes is attained by some visible point — and whose
`area` field equals `width * height` of that box (the input carries no
area field at all, so the area is always derived). -/
theorem keypoints_to_bboxes_minmax (kpts : List ℚ) (iid cid aid : ℤ)
    (hvis : ∃ t ∈ triples kpts, 0 < t.2.2) :
    ∃ x0 y0 bw bh,
      keypoints_to_bboxes kpts iid cid aid =
        some { image_id := iid, category_id := cid,
               bbox := [x0, y0, bw, bh], area := bw * bh,
               iscrowd := 0, id := aid } ∧
      (∀ t ∈ visiblePoints kpts,
        x0 ≤ t.1 ∧ t.1 ≤ x0 + bw ∧ y0 ≤ t.2.1 ∧ t.2.1 ≤ y0 + bh) ∧
      (∃ t ∈ visiblePoints kpts, t.1 = x0) ∧
      (∃ t ∈ visiblePoints kpts, t.1 = x0 + bw) ∧
      (∃ t ∈ visiblePoints kpts, t.2.1 = y0) ∧
      (∃ t ∈ visiblePoints kpts, t.2.1 = y0 + bh) := by
  classical
  obtain ⟨t0, ht0, hv0⟩ := hvis
  have hne : visiblePoints kpts ≠ [] := by
    intro hcon
    have : t0 ∈ visiblePoints kpts := by
      simp only [visiblePoints, List.mem_filter, decide_eq_true_eq]
      exact ⟨ht0, hv0⟩
    rw [hcon] at this
    simp at this
  set vis := visiblePoints kpts with hvisdef
  set xs := vis.map (fun t => t.1) with hxs
  set ys := vis.map (fun t => t.2.1) with hys
  have hxne : xs ≠ [] := by
    intro hcon
    exact hne (List.map_eq_nil_iff.1 hcon)
  have hyne : ys ≠ [] := by
    intro hcon
    exact hne (List.map_eq_nil_iff.1 hcon)
  refine ⟨pyMin xs, pyMin ys, pyMax xs - pyMin xs, pyMax ys - pyMin ys, ?_, ?_, ?_, ?_, ?_, ?_⟩
  · show keypoints_to_bboxes kpts iid cid aid = _
    rw [keypoints_to_bboxes]
    rw [if_neg]
    · exact not_or.2 ⟨hxne, hyne⟩
  · intro t ht
    have hx : t.1 ∈ xs := List.mem_map_of_mem _ ht
    have hy : t.2.1 ∈ ys := List.mem_map_of_mem _ ht
    refine ⟨pyMin_le xs t.1 hx, ?_, pyMin_le ys t.2.1 hy, ?_⟩
    · have := le_pyMax xs t.1 hx
      linarith
    · have := le_pyMax ys t.2.1 hy
      linarith
  · obtain ⟨t, ht, heq⟩ := List.mem_map.1 (pyMin_mem xs hxne)
    exact ⟨t, ht, heq⟩
  · obtain ⟨t, ht, heq⟩ := List.mem_map.1 (pyMax_mem xs hxne)
    exact ⟨t, ht, by linarith⟩
  · obtain ⟨t, ht, heq⟩ := List.mem_map.1 (pyMin_mem ys hyne)
    exact ⟨t, ht, heq⟩
  · obtain ⟨t, ht, heq⟩ := List.mem_map.1 (pyMax_mem ys hyne)
    exact ⟨t, ht, by linarith⟩

/-- Witness for C2 at the spec's own scenario: keypoints
`[0,0,0, 5,5,1, 10,10,1]` (first point invisible) yield a box. -/
theorem keypoints_to_bboxes_minmax_witness :
    ∃ x0 y0 bw bh,
      keypoints_to_bboxes [0, 0, 0, 5, 5, 1, 10, 10, 1] 1 2 3 =
        some { image_id := 1, category_id := 2,
               bbox := [x0, y0, bw, bh], area := bw * bh,
               iscrowd := 0, id := 3 } ∧
      (∀ t ∈ visiblePoints [0, 0, 0, 5, 5, 1, 10, 10, 1],
        x0 ≤ t.1 ∧ t.1 ≤ x0 + bw ∧ y0 ≤ t.2.1 ∧ t.2.1 ≤ y0 + bh) ∧
      (∃ t ∈ visiblePoints [0, 0, 0, 5, 5, 1, 10, 10, 1], t.1 = x0) ∧
      (∃ t ∈ visiblePoints [0, 0, 0, 5, 5, 1, 10, 10, 1], t.1 = x0 + bw) ∧
      (∃ t ∈ visiblePoints [0, 0, 0, 5, 5, 1, 10, 10, 1], t.2.1 = y0) ∧
      (∃ t ∈ visiblePoints [0, 0, 0, 5, 5, 1, 10, 10, 1], t.2.1 = y0 + bh) :=
  keypoints_to_bboxes_minmax [0, 0, 0, 5, 5, 1, 10, 10, 1] 1 2 3 (by decide)

/-- Model of one raw CSV cell as the numeric parsers of the sources see
it: the key can be absent from the row (`missing`), present but empty
(`blank`), present but not parseable as a float (`malformed`), or a
parseable numeric token carrying a rational value (`val`). -/
inductive CsvCell where
  | missing
  | blank
  | malformed
  | val (q : ℚ)
deriving DecidableEq

/-- Embedding of the field access `float(row.get(key, 0) or 0)` in
`parse_csv` (`src/convert_json_bbox.py`, lines 102-107): a missing key
defaults to `0`, an empty token is coerced to `0` by `or`, a present
non-empty token is handed to `float`, which raises on a malformed token
(modelled as `Except.error`). -/
def pyFloatOrDefault : CsvCell → Except Unit ℚ
  | .missing => .ok 0
  | .blank => .ok 0
  | .malformed => .error ()
  | .val q => .ok q

/-- Embedding of the keypoint loop of `parse_csv`
(`src/convert_json_bbox.py`, lines 102-107): the `(x, y, score)` cells of
each keypoint are parsed in order and the first failing `float` aborts the
whole parse. -/
def parseCsvPoints : List (CsvCell × CsvCell × CsvCell) → Except Unit (List (ℚ × ℚ × ℚ))
  | [] => .ok []
  | c :: cs =>
    match pyFloatOrDefault c.1, pyFloatOrDefault c.2.1, pyFloatOrDefault c.2.2 with
    | .ok x, .ok y, .ok s =>
      match parseCsvPoints cs with
      | .ok rest => .ok ((x, y, s) :: rest)
      | .error e => .error e
    | _, _, _ => .error ()

/-- Embedding of `float(row[key])` inside the `try` of
`read_csv_annotations` (`src/convert_json_keypoints.py`, line 93): only a
parseable numeric token yields a value; every other shape raises and is
caught by the surrounding bare `except`. -/
def tryFloat : CsvCell → Option ℚ
  | .val q => some q
  | _ => none

/-- Embedding of the per-triple body of `read_csv_annotations`
(`src/convert_json_keypoints.py`, lines 91-97): if all three fields parse,
store `(x, y, v)` with `v = 2` when `score > 0.5` and `v = 1` otherwise;
if anything raises, store `(0, 0, 0)`. -/
def readCsvTriple (c : CsvCell × CsvCell × CsvCell) : ℚ × ℚ × ℕ :=
  match tryFloat c.1, tryFloat c.2.1, tryFloat c.2.2 with
  | some x, some y, some s => (x, y, if (1 : ℚ) / 2 < s then 2 else 1)
  | _, _, _ => (0, 0, 0)

/-- Embedding of `int(row[key])` for the identity columns of
`read_csv_annotations` (`src/convert_json_keypoints.py`, lines 79-80):
`int` accepts only an integral numeric token and raises otherwise. -/
def pyIntCell : CsvCell → Except Unit ℤ
  | .val q => if q.den = 1 then .ok q.num else .error ()
  | _ => .error ()

/-- Embedding of the bbox derivation of `read_csv_annotations`
(`src/convert_json_keypoints.py`, lines 99-104): keep the stored triples
with visibility `≠ 0`; if none remain the bbox is the zero box
`[0, 0, 0, 0]`, else the min/max span of the kept coordinates. -/
def csvDeriveBbox (kpts : List (ℚ × ℚ × ℕ)) : List ℚ :=
  let valid := kpts.filter fun t => t.2.2 ≠ 0
  if valid = [] then [0, 0, 0, 0]
  else
    let xs := valid.map fun t => t.1
    let ys := valid.map fun t => t.2.1
    [pyMin xs, pyMin ys, pyMax xs - pyMin xs, pyMax ys - pyMin ys]

/-- One output record of `read_csv_annotations`
(`src/convert_json_keypoints.py`, lines 106-116); `category_id` is the
constant `2` there and `area` is `bbox[2] * bbox[3]`. -/
structure CsvRowOut where
  frame_id : ℤ
  track_id : ℤ
  keypoints : List (ℚ × ℚ × ℕ)
  num_keypoints : ℕ
  bbox : List ℚ
  area : ℚ
deriving DecidableEq

/-- Embedding of the per-row body of `read_csv_annotations`
(`src/convert_json_keypoints.py`, lines 78-117): the identity columns are
parsed with `int` (uncaught, so a failure aborts), the keypoint triples
with the guarded triple parser, and the bbox/area are derived from the
stored triples. -/
def readCsvRow (frameCell instCell : CsvCell)
    (cells : List (CsvCell × CsvCell × CsvCell)) : Except Unit CsvRowOut :=
  match pyIntCell frameCell, pyIntCell instCell with
  | .ok f, .ok i =>
    let kps := cells.map readCsvTriple
    let bbox := csvDeriveBbox kps
    .ok { frame_id := f
          track_id := i
          keypoints := kps
          num_keypoints := (kps.filter fun t => t.2.2 ≠ 0).length
          bbox := bbox
          area := bbox.getD 2 0 * bbox.getD 3 0 }
  | _, _ => .error ()

/-- Counterexample to C3: a CSV row whose keypoint fields all fail to
parse stores visibility `0` everywhere, and the reader then emits the
zero-sized box `[0, 0, 0, 0]` with `area = 0` — a present degenerate box,
not an absent one. -/
theorem csv_reader_zero_box_counterexample :
    readCsvRow (.val 0) (.val 5) [(.blank, .blank, .blank)] =
      .ok { frame_id := 0, track_id := 5, keypoints := [(0, 0, 0)],
            num_keypoints := 0, bbox := [0, 0, 0, 0], area := 0 } := by
  simp [readCsvRow, pyIntCell, readCsvTriple, tryFloat, csvDeriveBbox, pyMin, pyMax]

/-- C3 (amended): `keypoints_to_bboxes` does return an absent result for
a wholly-invisible keypoint list, but the CSV keypoints reader does not:
its bbox derivation yields the zero-sized box `[0, 0, 0, 0]` (and hence
area `0`) when no stored triple is visible. -/
theorem invisible_keypoints_box_policy (kpts : List ℚ) (iid cid aid : ℤ)
    (stored : List (ℚ × ℚ × ℕ))
    (h : ∀ t ∈ triples kpts, t.2.2 ≤ 0)
    (h2 : ∀ t ∈ stored, t.2.2 = 0) :
    keypoints_to_bboxes kpts iid cid aid = none ∧
    csvDeriveBbox stored = [0, 0, 0, 0] := by
  constructor
  · have hvis : visiblePoints kpts = [] := by
      simp only [visiblePoints, List.filter_eq_nil_iff, decide_eq_true_eq]
      intro t ht
      exact not_lt.2 (h t ht)
    rw [keypoints_to_bboxes]
    rw [if_pos]
    left
    rw [hvis]
    rfl
  · have hval : stored.filter (fun t => t.2.2 ≠ 0) = [] := by
      simp only [List.filter_eq_nil_iff, decide_eq_true_eq, not_not]
      intro t ht
      exact h2 t ht
    rw [csvDeriveBbox]
    rw [if_pos hval]

/-- Witness for the amended C3 at concrete inputs: the all-invisible
keypoint list `[0,0,0, 4,4,0]` produces no box from
`keypoints_to_bboxes`, while a stored all-invisible triple produces the
zero box from the CSV keypoints reader. -/
theorem invisible_keypoints_box_policy_witness :
    keypoints_to_bboxes [0, 0, 0, 4, 4, 0] 1 2 3 = none ∧
    csvDeriveBbox [(0, 0, 0)] = [0, 0, 0, 0] :=
  invisible_keypoints_box_policy [0, 0, 0, 4, 4, 0] 1 2 3 [(0, 0, 0)]
    (by decide) (by decide)

/-- Counterexample to C4: a row whose `x0` field is present but not
parseable as a float does not abort the keypoints-CSV conversion — the
reader catches the error, stores the triple as `(0, 0, 0)` and returns a
normal annotation record for the row. -/
theorem csv_malformed_no_abort_counterexample :
    readCsvRow (.val 0) (.val 5) [(.malformed, .val 1, .val 1)] =
      .ok { frame_id := 0, track_id := 5, keypoints := [(0, 0, 0)],
            num_keypoints := 0, bbox := [0, 0, 0, 0], area := 0 } := by
  simp [readCsvRow, pyIntCell, readCsvTriple, tryFloat, csvDeriveBbox, pyMin, pyMax]

/-- C4 (amended): the two CSV readers disagree on malformed numeric
keypoint fields.  `parse_csv` of the bbox converter fails fast — any row
with a malformed `x{i}`, `y{i}` or `score{i}` field turns the whole parse
into an error — while `read_csv_annotations` of the keypoints converter
never aborts on such a field: the row still yields a record and the
malformed triple is silently coerced to `(0, 0, 0)`. -/
theorem csv_malformed_field_policy (cells : List (CsvCell × CsvCell × CsvCell))
    (h : ∃ c ∈ cells, c.1 = CsvCell.malformed ∨ c.2.1 = CsvCell.malformed ∨
      c.2.2 = CsvCell.malformed) :
    parseCsvPoints cells = .error () ∧
    ∃ r, readCsvRow (.val 0) (.val 0) cells = .ok r ∧ (0, 0, 0) ∈ r.keypoints := by
  constructor
  · induction cells with
    | nil => simp at h
    | cons c cs ih =>
      rcases h with ⟨c0, hc0, hm⟩
      rcases List.mem_cons.1 hc0 with hh | hh
      · subst hh
        have herr : pyFloatOrDefault c0.1 = .error () ∨
            pyFloatOrDefault c0.2.1 = .error () ∨ pyFloatOrDefault c0.2.2 = .error () := by
          rcases hm with h1 | h1 | h1
          · left; rw [h1]; rfl
          · right; left; rw [h1]; rfl
          · right; right; rw [h1]; rfl
        rw [parseCsvPoints]
        rcases hx : pyFloatOrDefault c0.1 with e | x <;>
          rcases hy : pyFloatOrDefault c0.2.1 with e2 | y <;>
          rcases hs : pyFloatOrDefault c0.2.2 with e3 | s <;>
          simp_all
      · have htail : parseCsvPoints cs = .error () := ih ⟨c0, hh, hm⟩
        rw [parseCsvPoints]
        rcases hx : pyFloatOrDefault c.1 with e | x <;>
          rcases hy : pyFloatOrDefault c.2.1 with e2 | y <;>
          rcases hs : pyFloatOrDefault c.2.2 with e3 | s <;>
          simp_all
  · refine ⟨_, rfl, ?_⟩
    rcases h with ⟨c0, hc0, hm⟩
    have htrip : readCsvTriple c0 = (0, 0, 0) := by
      rcases hm with h1 | h1 | h1 <;>
        · rw [readCsvTriple, h1]
          rcases tryFloat c0.1 with _ | a <;>
            rcases tryFloat c0.2.1 with _ | b <;>
            rcases tryFloat c0.2.2 with _ | s <;> simp_all [tryFloat]
    exact htrip ▸ List.mem_map_of_mem readCsvTriple hc0

/-- Witness for the amended C4 at a concrete row: a malformed `x0` field
aborts `parse_csv` but yields a stored `(0, 0, 0)` triple from
`read_csv_annotations`. -/
theorem csv_malformed_field_policy_witness :
    parseCsvPoints [(.malformed, .val 1, .val 1)] = .error () ∧
    ∃ r, readCsvRow (.val 0) (.val 0) [(.malformed, .val 1, .val 1)] = .ok r ∧
      (0, 0, 0) ∈ r.keypoints :=
  csv_malformed_field_policy [(.malformed, .val 1, .val 1)]
    ⟨(.malformed, .val 1, .val 1), List.mem_singleton.2 rfl, Or.inl rfl⟩

/-- C10: every stored keypoint triple of the CSV keypoints reader either
comes from three parseable fields — in which case it is `(x, y, v)` with
`v = 2` exactly when `score > 0.5` and `v = 1` otherwise — or is the
fallback `(0, 0, 0)`; hence every stored visibility lies in `{0, 1, 2}`.
The raw confidence score is not preserved: two rows with distinct scores
`0.6` and `0.9` store identical triples. -/
theorem csv_triple_visibility (x y s : CsvCell) :
    ((∃ a b c, tryFloat x = some a ∧ tryFloat y = some b ∧ tryFloat s = some c ∧
        readCsvTriple (x, y, s) = (a, b, if (1 : ℚ) / 2 < c then 2 else 1)) ∨
      readCsvTriple (x, y, s) = (0, 0, 0)) ∧
    (readCsvTriple (x, y, s)).2.2 ∈ ({0, 1, 2} : Set ℕ) ∧
    readCsvTriple (.val 1, .val 2, .val (3 / 5)) =
      readCsvTriple (.val 1, .val 2, .val (9 / 10)) ∧
    (3 : ℚ) / 5 ≠ 9 / 10 := by
  refine ⟨?_, ?_, ?_, by norm_num⟩
  · rcases hx : tryFloat x with _ | a <;>
      rcases hy : tryFloat y with _ | b <;>
      rcases hs : tryFloat s with _ | c <;>
      simp [readCsvTriple, hx, hy, hs]
  · rcases hx : tryFloat x with _ | a <;>
      rcases hy : tryFloat y with _ | b <;>
      rcases hs : tryFloat s with _ | c <;>
      simp [readCsvTriple, hx, hy, hs] <;>
      exact Or.inr (le_or_lt c _)
  · simp only [readCsvTriple, tryFloat]
    norm_num

/-- One record of the `annotations` list as read by `parse_json`
(`src/convert_json_bbox.py`, lines 148-166); optional JSON keys are
`Option`s. -/
structure JsonAnn where
  image_id : ℤ
  track_id : Option ℤ
  instance_id : Option ℤ
  id : Option ℤ
  category_id : Option ℤ
  keypoints : Option (List ℚ)

/-- Embedding of the instance-id precedence of `parse_json`
(`src/convert_json_bbox.py`, lines 154-159): an explicit `track_id`, else
an explicit `instance_id`, else `id` with default `0`. -/
def resolveInstanceId (a : JsonAnn) : ℤ :=
  match a.track_id with
  | some t => t
  | none =>
    match a.instance_id with
    | some i => i
    | none => a.id.getD 0

/-- The category observations `parse_json` accumulates for one instance
(`src/convert_json_bbox.py`, lines 161-162), in annotation order:
`category_id` (default `0`) of every annotation resolving to the
instance.  The Python side keeps them in a `set`, so only the set of
values — not their multiplicities — survives. -/
def collectClasses (anns : List JsonAnn) (iid : ℤ) : List ℤ :=
  (anns.filter fun a => resolveInstanceId a = iid).map fun a => a.category_id.getD 0

/-- Embedding of `sorted(classes_by_instance.get(instance_id, {0}))` in
`build_cvat_xml` (`src/convert_json_bbox.py`, line 204): Python sorts the
set of observed category ids, i.e. the deduplicated observations in
ascending order. -/
def classIdsSorted (obs : List ℤ) : List ℤ :=
  List.insertionSort (· ≤ ·) obs.dedup

/-- Embedding of `class_ids[0]` in `build_cvat_xml`
(`src/convert_json_bbox.py`, line 205): the first element of the sorted
category-id set (`0` for an instance with no observations, matching the
`{0}` default). -/
def resolveClassId (obs : List ℤ) : ℤ :=
  (classIdsSorted obs).headD 0

/-- The resolution rule C1 claims, written from the spec's words: the
category observed most frequently, ties broken by the smallest category
id (scanning the ascending distinct ids and keeping the first strict
maximum of the observation count). -/
def specMajorityVote (obs : List ℤ) : ℤ :=
  (classIdsSorted obs).foldl
    (fun best c => if obs.count best < obs.count c then c else best)
    ((classIdsSorted obs).headD 0)

/-- Concrete annotation list for one instance (track 1) observed as
category 7 in five frames and category 3 in two frames. -/
def annsSplitVote : List JsonAnn :=
  [⟨0, some 1, none, none, some 7, none⟩,
   ⟨1, some 1, none, none, some 7, none⟩,
   ⟨2, some 1, none, none, some 7, none⟩,
   ⟨3, some 1, none, none, some 7, none⟩,
   ⟨4, some 1, none, none, some 7, none⟩,
   ⟨5, some 1, none, none, some 3, none⟩,
   ⟨6, some 1, none, none, some 3, none⟩]

/-- Counterexample to C1: for an instance observed as category 7 in five
frames and category 3 in two frames, the code resolves the label to
category 3 (the smallest observed id), while the claimed majority vote
resolves it to 7. -/
theorem track_label_majority_counterexample :
    resolveClassId (collectClasses annsSplitVote 1) = 3 ∧
    specMajorityVote (collectClasses annsSplitVote 1) = 7 ∧
    (3 : ℤ) ≠ 7 := by
  decide

/-- C1 (amended): the Track Assembler resolves an instance's label to the
smallest category id observed for that instance — frequencies are not
consulted at all (the observations are collapsed into a set before the
choice).  The claim's own example still holds: category 3 in five frames
and category 7 in two frames resolves to 3, agreeing with majority vote
only because 3 is also the smallest id. -/
theorem track_label_resolution (obs : List ℤ) (h : obs ≠ []) :
    resolveClassId obs ∈ obs ∧
    (∀ c ∈ obs, resolveClassId obs ≤ c) ∧
    resolveClassId (List.replicate 5 3 ++ List.replicate 2 7) = 3 := by
  have hperm : (classIdsSorted obs).Perm obs.dedup := List.perm_insertionSort _ _
  have hsorted : List.Sorted (· ≤ ·) (classIdsSorted obs) :=
    List.sorted_insertionSort _ _
  rcases hlist : classIdsSorted obs with _ | ⟨a, t⟩
  · exfalso
    rw [hlist] at hperm
    have : obs.dedup = [] := hperm.nil_eq.symm
    exact h ((List.dedup_eq_nil obs).1 this)
  · rw [hlist] at hperm hsorted
    have hres : resolveClassId obs = a := by
      rw [resolveClassId, hlist]
      rfl
    refine ⟨?_, ?_, by decide⟩
    · rw [hres]
      exact (List.mem_dedup.1 (hperm.mem_iff.1 (List.mem_cons_self a t)))
    · intro c hc
      rw [hres]
      have hcd : c ∈ a :: t := hperm.mem_iff.2 (List.mem_dedup.2 hc)
      rcases List.mem_cons.1 hcd with hh | hh
      · exact le_of_eq hh.symm
      · exact List.rel_of_sorted_cons hsorted c hh

/-- Witness for the amended C1 at the claim's example observations
(category 3 five times, category 7 twice): the resolved label is an
observed category. -/
theorem track_label_resolution_witness :
    resolveClassId [3, 3, 3, 3, 3, 7, 7] ∈ ([3, 3, 3, 3, 3, 7, 7] : List ℤ) :=
  (track_label_resolution [3, 3, 3, 3, 3, 7, 7] (by decide)).1

lemma keypoints_to_bboxes_eq_none (kpts : List ℚ) (iid cid aid : ℤ)
    (h : ∀ t ∈ triples kpts, t.2.2 ≤ 0) :
    keypoints_to_bboxes kpts iid cid aid = none := by
  have hvis : visiblePoints kpts = [] := by
    simp only [visiblePoints, List.filter_eq_nil_iff, decide_eq_true_eq]
    intro t ht
    exact not_lt.2 (h t ht)
  rw [keypoints_to_bboxes]
  rw [if_pos]
  left
  rw [hvis]
  rfl

/-- One record of the `annotations` list consumed by
`build_coco_bbox_from_keypoints_json` (`src/auto_kpts_bbox.py`, lines
106-113); there `image_id`, `category_id` and `id` are accessed directly
while `keypoints` is optional. -/
structure KpFileAnn where
  image_id : ℤ
  category_id : ℤ
  id : ℤ
  keypoints : Option (List ℚ)

/-- Embedding of the loop body of `build_coco_bbox_from_keypoints_json`
(`src/auto_kpts_bbox.py`, lines 107-113): a missing or empty `keypoints`
list is skipped (`if not kp: continue`), otherwise the derived box is
kept only when `keypoints_to_bboxes` produced one. -/
def annBbox (a : KpFileAnn) : Option CocoBbox :=
  match a.keypoints with
  | none => none
  | some [] => none
  | some kp => keypoints_to_bboxes kp a.image_id a.category_id a.id

/-- Embedding of the `bbox_annotations` accumulation of
`build_coco_bbox_from_keypoints_json` (`src/auto_kpts_bbox.py`, lines
106-113). -/
def buildBboxAnns (anns : List KpFileAnn) : List CocoBbox :=
  anns.filterMap annBbox

/-- Embedding of `coco_keypoints_to_pairs` (`src/convert_json_bbox.py`,
lines 53-68): keep at most `k` complete triples, then pad with
`(0, 0, 0)` up to length `k`. -/
def coco_keypoints_to_pairs (kpts : List ℚ) (k : ℕ) : List (ℚ × ℚ × ℚ) :=
  let t := (triples kpts).take k
  t ++ List.replicate (k - t.length) (0, 0, 0)

/-- Embedding of one iteration of the annotation loop of `parse_json`
(`src/convert_json_bbox.py`, lines 148-166): the store
`data[frame_id][instance_id] = pts` executed for an annotation, where
`idToFrame` stands for the `id_to_frame.get(img_id, img_id)` lookup. -/
def jsonStoreOp (idToFrame : ℤ → ℤ) (k : ℕ) (a : JsonAnn) :
    ℤ × ℤ × List (ℚ × ℚ × ℚ) :=
  (idToFrame a.image_id, resolveInstanceId a,
    coco_keypoints_to_pairs (a.keypoints.getD []) k)

/-- The sequence of stores `parse_json` performs into its normalized
model, one per annotation (a later store for the same (frame, instance)
key overwrites an earlier one in the Python dict). -/
def parseJsonData (idToFrame : ℤ → ℤ) (k : ℕ) (anns : List JsonAnn) :
    List (ℤ × ℤ × List (ℚ × ℚ × ℚ)) :=
  anns.map (jsonStoreOp idToFrame k)

/-- A COCO annotation with no usable geometry: no keypoints at all (and
no bbox or center/size fields exist in the model `parse_json` reads). -/
def annNoGeometry : JsonAnn := ⟨5, none, none, some 9, some 2, none⟩

/-- Counterexample to C5: `parse_json` does not drop an annotation with
no usable geometry — it stores a zero-padded keypoint entry for it in the
normalized model (here with `keypoint_count = 2`). -/
theorem json_reader_stores_empty_counterexample :
    parseJsonData (fun i => i) 2 [annNoGeometry] =
      [(5, 9, [(0, 0, 0), (0, 0, 0)])] ∧
    parseJsonData (fun i => i) 2 [annNoGeometry] ≠ [] :=
  ⟨rfl, by simp [parseJsonData]⟩

/-- C5 (amended): the bbox builder `build_coco_bbox_from_keypoints_json`
silently drops an annotation with no usable geometry (missing keypoints,
empty keypoints, or no visible keypoint) — it contributes nothing to the
output list and the remaining annotations are processed unchanged — but
the reader `parse_json` does not drop such an annotation: it stores a
zero-padded keypoint entry for it in the normalized model. -/
theorem coco_geometry_drop (pre suf : List KpFileAnn) (a : KpFileAnn)
    (idToFrame : ℤ → ℤ) (k : ℕ) (pre2 suf2 : List JsonAnn) (b : JsonAnn)
    (h : a.keypoints = none ∨ a.keypoints = some [] ∨
      ∀ t ∈ triples (a.keypoints.getD []), t.2.2 ≤ 0) :
    buildBboxAnns (pre ++ a :: suf) = buildBboxAnns (pre ++ suf) ∧
    parseJsonData idToFrame k (pre2 ++ b :: suf2) =
      parseJsonData idToFrame k pre2 ++
        jsonStoreOp idToFrame k b :: parseJsonData idToFrame k suf2 := by
  constructor
  · have hnone : annBbox a = none := by
      rcases h with h1 | h1 | h1
      · rw [annBbox, h1]
      · rw [annBbox, h1]
      · rcases hk : a.keypoints with _ | kp
        · rw [annBbox, hk]
        · rcases kp with _ | ⟨q, qs⟩
          · rw [annBbox, hk]
          · rw [annBbox, hk]
            exact keypoints_to_bboxes_eq_none _ _ _ _ (by simpa [hk] using h1)
    simp [buildBboxAnns, List.filterMap_append, List.filterMap_cons, hnone]
  · simp [parseJsonData]

/-- Witness for the amended C5 at concrete inputs: a keypoint-less
annotation contributes no bbox record, while `parse_json` still stores an
entry for `annNoGeometry`. -/
theorem coco_geometry_drop_witness :
    buildBboxAnns ([] ++ ⟨3, 2, 7, none⟩ :: []) = buildBboxAnns ([] ++ []) ∧
    parseJsonData (fun i => i) 2 ([] ++ annNoGeometry :: []) =
      parseJsonData (fun i => i) 2 [] ++
        jsonStoreOp (fun i => i) 2 annNoGeometry :: parseJsonData (fun i => i) 2 [] :=
  coco_geometry_drop [] [] ⟨3, 2, 7, none⟩ (fun i => i) 2 [] [] annNoGeometry
    (Or.inl rfl)

/-- Modelled from the spec: `centerSizeToCorners(cx, cy, w, h)` of the
Geometry Deriver (spec §4.2).  No center/size-to-corner conversion (nor a
box-mode CSV reader calling it) appears under `src/`; the definition
follows the spec formula `xtl = cx - w/2, ytl = cy - h/2, xbr = cx + w/2,
ybr = cy + h/2`. -/
def centerSizeToCorners (cx cy w h : ℚ) : ℚ × ℚ × ℚ × ℚ :=
  (cx - w / 2, cy - h / 2, cx + w / 2, cy + h / 2)

/-- Modelled from the spec: `clamp(box, frameWidth, frameHeight)` of the
Geometry Deriver with known frame dimensions (spec §4.2): clip all four
corner coordinates into `[0, dimension]` (x-coordinates against the
width, y-coordinates against the height). -/
def clampCorners (b : ℚ × ℚ × ℚ × ℚ) (w h : ℚ) : ℚ × ℚ × ℚ × ℚ :=
  (max 0 (min b.1 w), max 0 (min b.2.1 h),
   max 0 (min b.2.2.1 w), max 0 (min b.2.2.2 h))

/-- C6: `centerSizeToCorners` returns the spec's corner formula, clamping
with known nonnegative frame bounds lands all corners within
`[0, width] × [0, height]`, and the spec scenario holds: center/size
`(10, 10, 4, 2)` gives corners `(8, 9, 12, 11)`, which clamped to bounds
`(10, 10)` gives `(8, 9, 10, 10)`. -/
theorem center_size_clamp (cx cy w h W H : ℚ) (hW : 0 ≤ W) (hH : 0 ≤ H) :
    centerSizeToCorners cx cy w h =
      (cx - w / 2, cy - h / 2, cx + w / 2, cy + h / 2) ∧
    (0 ≤ (clampCorners (centerSizeToCorners cx cy w h) W H).1 ∧
      (clampCorners (centerSizeToCorners cx cy w h) W H).1 ≤ W ∧
      0 ≤ (clampCorners (centerSizeToCorners cx cy w h) W H).2.1 ∧
      (clampCorners (centerSizeToCorners cx cy w h) W H).2.1 ≤ H ∧
      0 ≤ (clampCorners (centerSizeToCorners cx cy w h) W H).2.2.1 ∧
      (clampCorners (centerSizeToCorners cx cy w h) W H).2.2.1 ≤ W ∧
      0 ≤ (clampCorners (centerSizeToCorners cx cy w h) W H).2.2.2 ∧
      (clampCorners (centerSizeToCorners cx cy w h) W H).2.2.2 ≤ H) ∧
    centerSizeToCorners 10 10 4 2 = (8, 9, 12, 11) ∧
    clampCorners (8, 9, 12, 11) 10 10 = (8, 9, 10, 10) := by
  refine ⟨rfl, ?_, by norm_num [centerSizeToCorners], ?_⟩
  · refine ⟨le_max_left 0 _, max_le hW (min_le_right _ _),
      le_max_left 0 _, max_le hH (min_le_right _ _),
      le_max_left 0 _, max_le hW (min_le_right _ _),
      le_max_left 0 _, max_le hH (min_le_right _ _)⟩
  · have h1 : min (8 : ℚ) 10 = 8 := by norm_num
    have h2 : min (9 : ℚ) 10 = 9 := by norm_num
    have h3 : min (12 : ℚ) 10 = 10 := by norm_num
    have h4 : min (11 : ℚ) 10 = 10 := by norm_num
    simp only [clampCorners, h1, h2, h3, h4]
    norm_num

/-- Witness for C6 at the spec scenario inputs. -/
theorem center_size_clamp_witness :
    centerSizeToCorners 10 10 4 2 = (8, 9, 12, 11) ∧
    clampCorners (8, 9, 12, 11) 10 10 = (8, 9, 10, 10) :=
  ⟨(center_size_clamp 10 10 4 2 10 10 (by norm_num) (by norm_num)).2.2.1,
   (center_size_clamp 10 10 4 2 10 10 (by norm_num) (by norm_num)).2.2.2⟩

/-- One keypoints-side annotation consumed by the merger
(`src/merge_bbox_keypoints.py`, lines 51-52 and 76-77). -/
structure MergeKpAnn where
  image_id : ℤ
  category_id : ℤ
  keypoints : List ℚ
  num_keypoints : Option ℕ
deriving DecidableEq

/-- One box-side annotation consumed by the merger
(`src/merge_bbox_keypoints.py`, lines 54-55 and 72-75). -/
structure MergeBoxAnn where
  image_id : ℤ
  category_id : ℤ
  bbox : List ℚ
  area : Option ℚ
  segmentation : Option (List (List ℚ))
  iscrowd : Option ℕ
deriving DecidableEq

/-- One merged record (`src/merge_bbox_keypoints.py`, lines 68-78). -/
structure MergedAnn where
  id : ℤ
  image_id : ℤ
  category_id : ℤ
  bbox : List ℚ
  area : ℚ
  segmentation : List (List ℚ)
  iscrowd : ℕ
  keypoints : List ℚ
  num_keypoints : ℕ
deriving DecidableEq

/-- Embedding of the merged-record construction
(`src/merge_bbox_keypoints.py`, lines 68-78): geometry fields are copied
from the box side (`bbox`, and `area`/`segmentation`/`iscrowd` with their
`.get` defaults), keypoint fields from the keypoint side. -/
def mkMerged (iid n : ℤ) (kp : MergeKpAnn) (b : MergeBoxAnn) : MergedAnn :=
  { id := n
    image_id := iid
    category_id := kp.category_id
    bbox := b.bbox
    area := b.area.getD 0
    segmentation := b.segmentation.getD []
    iscrowd := b.iscrowd.getD 0
    keypoints := kp.keypoints
    num_keypoints := kp.num_keypoints.getD 0 }

/-- Embedding of the inner loop `for bbox_ann in matching_bboxes`
(`src/merge_bbox_keypoints.py`, lines 67-80), threading the running
`annotation_id`. -/
def emitRow (iid : ℤ) (kp : MergeKpAnn) : List MergeBoxAnn → ℤ → List MergedAnn × ℤ
  | [], n => ([], n)
  | b :: bs, n =>
    let rest := emitRow iid kp bs (n + 1)
    (mkMerged iid n kp b :: rest.1, rest.2)

/-- Embedding of the per-image merge loop `for kp_ann in anns["keypoints"]`
(`src/merge_bbox_keypoints.py`, lines 62-80): each keypoint annotation is
paired with every box annotation of the bucket sharing its
`category_id`. -/
def mergeBucket (iid : ℤ) : List MergeKpAnn → List MergeBoxAnn → ℤ → List MergedAnn × ℤ
  | [], _, n => ([], n)
  | kp :: kps, boxes, n =>
    let row := emitRow iid kp (boxes.filter fun b => b.category_id == kp.category_id) n
    let rest := mergeBucket iid kps boxes row.2
    (row.1 ++ rest.1, rest.2)

/-- Unused default keypoint annotation for positional list access. -/
def defaultMergeKp : MergeKpAnn := ⟨0, 0, [], none⟩

/-- Unused default box annotation for positional list access. -/
def defaultMergeBox : MergeBoxAnn := ⟨0, 0, [], none, none, none⟩

/-- Unused default merged record for positional list access. -/
def defaultMerged : MergedAnn := mkMerged 0 0 defaultMergeKp defaultMergeBox

lemma emitRow_length (iid : ℤ) (kp : MergeKpAnn) :
    ∀ (bs : List MergeBoxAnn) (n : ℤ), (emitRow iid kp bs n).1.length = bs.length := by
  intro bs
  induction bs with
  | nil => intro n; rfl
  | cons b bs ih => intro n; simp [emitRow, ih (n + 1)]

lemma emitRow_snd (iid : ℤ) (kp : MergeKpAnn) :
    ∀ (bs : List MergeBoxAnn) (n : ℤ), (emitRow iid kp bs n).2 = n + bs.length := by
  intro bs
  induction bs with
  | nil => intro n; simp [emitRow]
  | cons b bs ih =>
    intro n
    have := ih (n + 1)
    simp only [emitRow, this, List.length_cons]
    push_cast
    ring

lemma emitRow_getD (iid : ℤ) (kp : MergeKpAnn) :
    ∀ (bs : List MergeBoxAnn) (n : ℤ) (j : ℕ), j < bs.length →
      (emitRow iid kp bs n).1.getD j defaultMerged =
        mkMerged iid (n + j) kp (bs.getD j defaultMergeBox) := by
  intro bs
  induction bs with
  | nil => intro n j hj; simp at hj
  | cons b bs ih =>
    intro n j hj
    cases j with
    | zero => simp [emitRow]
    | succ j =>
      have hj' : j < bs.length := by simpa using hj
      have hstep := ih (n + 1) j hj'
      have harith : n + 1 + (j : ℤ) = n + ((j : ℕ) + 1 : ℕ) := by push_cast; ring
      simp only [emitRow, List.getD_cons_succ, hstep, harith]

/-- C7: for an image bucket of M keypoint annotations and N box
annotations all sharing category `c`, the merger emits exactly `M * N`
merged records — the record at position `i * N + j` pairs the `i`-th
keypoint annotation with the `j`-th box annotation, copying box-side and
keypoint-side fields as in `mkMerged`, with fresh sequential ids starting
at the running counter — and leaves the counter advanced by `M * N`. -/
theorem merger_cross_join (iid c n : ℤ)
    (kps : List MergeKpAnn) (boxes : List MergeBoxAnn)
    (hk : ∀ kp ∈ kps, kp.category_id = c)
    (hb : ∀ b ∈ boxes, b.category_id = c) :
    (mergeBucket iid kps boxes n).1.length = kps.length * boxes.length ∧
    (mergeBucket iid kps boxes n).2 = n + kps.length * boxes.length ∧
    ∀ i j, i < kps.length → j < boxes.length →
      (mergeBucket iid kps boxes n).1.getD (i * boxes.length + j) defaultMerged =
        mkMerged iid (n + i * boxes.length + j)
          (kps.getD i defaultMergeKp) (boxes.getD j defaultMergeBox) := by
  induction kps generalizing n with
  | nil =>
    refine ⟨by simp [mergeBucket], by simp [mergeBucket], ?_⟩
    intro i j hi _
    simp at hi
  | cons kp kps ih =>
    have hfilter : (boxes.filter fun b => b.category_id == kp.category_id) = boxes := by
      apply List.filter_eq_self.2
      intro b hb'
      rw [hb b hb', hk kp (List.mem_cons_self kp kps)]
      simp
    have hkps : ∀ kp' ∈ kps, kp'.category_id = c := fun kp' h' =>
      hk kp' (List.mem_cons_of_mem kp h')
    obtain ⟨ih1, ih2, ih3⟩ := ih (n + (boxes.length : ℤ)) hkps
    have hrow2 : (emitRow iid kp (boxes.filter fun b =>
        b.category_id == kp.category_id) n).2 = n + boxes.length := by
      rw [hfilter, emitRow_snd]
    have hrow1 : (emitRow iid kp (boxes.filter fun b =>
        b.category_id == kp.category_id) n).1.length = boxes.length := by
      rw [hfilter, emitRow_length]
    refine ⟨?_, ?_, ?_⟩
    · simp only [mergeBucket, List.length_append, hrow1, hrow2, ih1, List.length_cons]
      ring
    · simp only [mergeBucket, hrow2, ih2, List.length_cons]
      push_cast
      ring
    · intro i j hi hj
      cases i with
      | zero =>
        have hidx : 0 * boxes.length + j < (emitRow iid kp (boxes.filter fun b =>
            b.category_id == kp.category_id) n).1.length := by
          rw [hrow1]
          simpa using hj
        simp only [mergeBucket]
        rw [List.getD_append _ _ _ _ hidx]
        rw [hfilter]
        have := emitRow_getD iid kp boxes n j hj
        simpa using this
      | succ i =>
        have hi' : i < kps.length := by simpa using hi
        have hlen : (emitRow iid kp (boxes.filter fun b =>
            b.category_id == kp.category_id) n).1.length ≤ (i + 1) * boxes.length + j := by
          rw [hrow1]
          calc boxes.length ≤ (i + 1) * boxes.length := by
                have := Nat.le_mul_of_pos_left boxes.length (Nat.succ_pos i)
                simpa [Nat.mul_comm] using Nat.le_mul_of_pos_left boxes.length (Nat.succ_pos i)
            _ ≤ (i + 1) * boxes.length + j := Nat.le_add_right _ _
        simp only [mergeBucket]
        rw [List.getD_append_right _ _ _ _ hlen]
        rw [hrow2, hrow1]
        have hidxeq : (i + 1) * boxes.length + j - boxes.length = i * boxes.length + j := by
          have : (i + 1) * boxes.length = i * boxes.length + boxes.length := by ring
          omega
        rw [hidxeq]
        have := ih3 i j hi' hj
        rw [this]
        have harith : n + (boxes.length : ℤ) + i * boxes.length + j =
            n + (i + 1 : ℕ) * boxes.length + j := by push_cast; ring
        rw [harith]
        simp

/-- Witness for C7 at the spec's merger example: one keypoint annotation
and two box annotations sharing `image_id = 10`, `category_id = 2`
produce exactly two merged records and advance the id counter from 1 to
3. -/
theorem merger_cross_join_witness :
    (mergeBucket 10 [⟨10, 2, [1, 2, 2], some 1⟩]
        [⟨10, 2, [0, 0, 4, 4], some 16, none, some 0⟩,
         ⟨10, 2, [1, 1, 2, 2], some 4, none, some 0⟩] 1).1.length = 1 * 2 ∧
    (mergeBucket 10 [⟨10, 2, [1, 2, 2], some 1⟩]
        [⟨10, 2, [0, 0, 4, 4], some 16, none, some 0⟩,
         ⟨10, 2, [1, 1, 2, 2], some 4, none, some 0⟩] 1).2 = 1 + 1 * 2 := by
  obtain ⟨h1, h2, -⟩ := merger_cross_join 10 2 1
    [⟨10, 2, [1, 2, 2], some 1⟩]
    [⟨10, 2, [0, 0, 4, 4], some 16, none, some 0⟩,
     ⟨10, 2, [1, 1, 2, 2], some 4, none, some 0⟩]
    (by intro kp hkp; simp at hkp; rw [hkp])
    (by intro b hb; simp at hb; rcases hb with h | h <;> rw [h])
  constructor
  · simpa using h1
  · simpa using h2

/-- Separator between serialized points (`";".join(...)`). -/
def semicolonStr : String := ";"

/-- Separator between the two coordinates of one point. -/
def commaStr : String := ","

/-- Decimal dot of the fixed format. -/
def strDot : String := "."

/-- Minus sign of the fixed format. -/
def strNeg : String := "-"

/-- Left-pads a digit string with zeros to width `d`, as Python's fixed
format does for the fractional part. -/
def padZeros (d : ℕ) (s : String) : String :=
  String.mk (List.replicate (d - s.length) '0') ++ s

/-- Model of Python fixed-point formatting `f"{x:.df}"` on rationals: the
absolute value is scaled by `10^d`, rounded to an integer, and printed as
integer part, dot, and a `d`-wide zero-padded fractional part, with a
leading minus sign for negative inputs.  (Ties round upward here; the
sources format binary doubles, where the claims' concrete values are not
ties.) -/
def formatFixed (d : ℕ) (q : ℚ) : String :=
  let m : ℤ := round (|q| * (10 : ℚ) ^ d)
  let core := toString (m / (10 : ℤ) ^ d) ++ strDot ++ padZeros d (toString (m % (10 : ℤ) ^ d))
  if q < 0 then strNeg ++ core else core

/-- Embedding of `flatten_points_xy` (`src/convert_json_bbox.py`, lines
70-74): the 3-decimal serialization of the keypoint pairs. -/
def flatten_points_xy (pairs : List (ℚ × ℚ × ℚ)) : String :=
  String.intercalate semicolonStr
    (pairs.map fun p => formatFixed 3 p.1 ++ commaStr ++ formatFixed 3 p.2.1)

/-- Embedding of the points serialization of `convert_to_cvat_xml`
(`src/convert_json_keypoints.py`, line 144): 2-decimal formatting of each
stored keypoint triple's coordinates. -/
def kpPointsString (kpts : List ℚ) : String :=
  String.intercalate semicolonStr
    ((triples kpts).map fun p => formatFixed 2 p.1 ++ commaStr ++ formatFixed 2 p.2.1)

/-- The attributes of one serialized keyframe element. -/
structure KeyframeEl where
  frame : ℤ
  outside : String
  occluded : String
  keyframe : String
  points : String
deriving DecidableEq

/-- Embedding of the keyframe element written by `build_cvat_xml`
(`src/convert_json_bbox.py`, lines 217-225). -/
def bboxWriterKeyframe (fr : ℤ) (pairs : List (ℚ × ℚ × ℚ)) : KeyframeEl :=
  { frame := fr, outside := "0", occluded := "0", keyframe := "1",
    points := flatten_points_xy pairs }

/-- Embedding of the keyframe element written by `convert_to_cvat_xml`
(`src/convert_json_keypoints.py`, lines 143-145). -/
def kpWriterKeyframe (fr : ℤ) (kpts : List ℚ) : KeyframeEl :=
  { frame := fr, outside := "0", occluded := "0", keyframe := "1",
    points := kpPointsString kpts }

lemma formatFixed_of_nonneg (d : ℕ) (q : ℚ) (hq : ¬ q < 0) (m : ℤ)
    (hm : round (|q| * (10 : ℚ) ^ d) = m) :
    formatFixed d q =
      toString (m / (10 : ℤ) ^ d) ++ strDot ++ padZeros d (toString (m % (10 : ℤ) ^ d)) := by
  rw [formatFixed]
  rw [hm, if_neg hq]

lemma formatFixed_two_one : formatFixed 2 (1 : ℚ) = "1.00" := by
  rw [formatFixed_of_nonneg 2 1 (by norm_num) 100 (by norm_num [round_eq])]
  norm_num
  rfl

lemma formatFixed_two_two : formatFixed 2 (2 : ℚ) = "2.00" := by
  rw [formatFixed_of_nonneg 2 2 (by norm_num) 200 (by norm_num [round_eq])]
  norm_num
  rfl

lemma formatFixed_two_three : formatFixed 2 (3 : ℚ) = "3.00" := by
  rw [formatFixed_of_nonneg 2 3 (by norm_num) 300 (by norm_num [round_eq])]
  norm_num
  rfl

lemma formatFixed_two_four : formatFixed 2 (4 : ℚ) = "4.00" := by
  rw [formatFixed_of_nonneg 2 4 (by norm_num) 400 (by norm_num [round_eq])]
  norm_num
  rfl

lemma formatFixed_three_one : formatFixed 3 (1 : ℚ) = "1.000" := by
  rw [formatFixed_of_nonneg 3 1 (by norm_num) 1000 (by norm_num [round_eq])]
  norm_num
  rfl

lemma formatFixed_three_two : formatFixed 3 (2 : ℚ) = "2.000" := by
  rw [formatFixed_of_nonneg 3 2 (by norm_num) 2000 (by norm_num [round_eq])]
  norm_num
  rfl

lemma formatFixed_three_three : formatFixed 3 (3 : ℚ) = "3.000" := by
  rw [formatFixed_of_nonneg 3 3 (by norm_num) 3000 (by norm_num [round_eq])]
  norm_num
  rfl

lemma formatFixed_three_four : formatFixed 3 (4 : ℚ) = "4.000" := by
  rw [formatFixed_of_nonneg 3 4 (by norm_num) 4000 (by norm_num [round_eq])]
  norm_num
  rfl

/-- Counterexample to C8: the keypoints-converter XML writer serializes
the keyframe payload with 2-decimal — not 3-decimal — fixed formatting:
for the stored triple `(1, 2, visible)` it writes `1.00,2.00`, which
differs from the 3-decimal serialization of the same point. -/
theorem xml_keyframe_two_decimals_counterexample :
    (kpWriterKeyframe 0 [1, 2, 1]).points = "1.00,2.00" ∧
    flatten_points_xy [(1, 2, 1)] = "1.000,2.000" ∧
    (kpWriterKeyframe 0 [1, 2, 1]).points ≠ flatten_points_xy [(1, 2, 1)] := by
  have h2 : (kpWriterKeyframe 0 [1, 2, 1]).points = "1.00,2.00" := by
    show kpPointsString [1, 2, 1] = _
    rw [kpPointsString]
    show String.intercalate semicolonStr
      [formatFixed 2 1 ++ commaStr ++ formatFixed 2 2] = _
    rw [formatFixed_two_one, formatFixed_two_two]
    rfl
  have h3 : flatten_points_xy [(1, 2, 1)] = "1.000,2.000" := by
    rw [flatten_points_xy]
    show String.intercalate semicolonStr
      [formatFixed 3 1 ++ commaStr ++ formatFixed 3 2] = _
    rw [formatFixed_three_one, formatFixed_three_two]
    rfl
  refine ⟨h2, h3, ?_⟩
  rw [h2, h3]
  decide

/-- C8 (amended): every keyframe element of both XML writers carries
`outside="0"`, `occluded="0"`, `keyframe="1"`, and its payload is the
`x,y;x,y;...` join of per-coordinate fixed-decimal formatting — but the
widths differ: the bbox-converter writer (`flatten_points_xy`) uses
3-decimal formatting while the keypoints-converter writer uses 2-decimal
formatting, as the concrete serializations of the points `(1,2), (3,4)`
show. -/
theorem xml_keyframe_format (fr : ℤ) (pairs : List (ℚ × ℚ × ℚ)) (kpts : List ℚ) :
    (bboxWriterKeyframe fr pairs).outside = "0" ∧
    (bboxWriterKeyframe fr pairs).occluded = "0" ∧
    (bboxWriterKeyframe fr pairs).keyframe = "1" ∧
    (bboxWriterKeyframe fr pairs).points =
      String.intercalate semicolonStr
        (pairs.map fun p => formatFixed 3 p.1 ++ commaStr ++ formatFixed 3 p.2.1) ∧
    (kpWriterKeyframe fr kpts).outside = "0" ∧
    (kpWriterKeyframe fr kpts).occluded = "0" ∧
    (kpWriterKeyframe fr kpts).keyframe = "1" ∧
    (kpWriterKeyframe fr kpts).points =
      String.intercalate semicolonStr
        ((triples kpts).map fun p => formatFixed 2 p.1 ++ commaStr ++ formatFixed 2 p.2.1) ∧
    flatten_points_xy [(1, 2, 1), (3, 4, 1)] = "1.000,2.000;3.000,4.000" ∧
    kpPointsString [1, 2, 1, 3, 4, 1] = "1.00,2.00;3.00,4.00" := by
  refine ⟨rfl, rfl, rfl, rfl, rfl, rfl, rfl, rfl, ?_, ?_⟩
  · rw [flatten_points_xy]
    show String.intercalate semicolonStr
      [formatFixed 3 1 ++ commaStr ++ formatFixed 3 2,
       formatFixed 3 3 ++ commaStr ++ formatFixed 3 4] = _
    rw [formatFixed_three_one, formatFixed_three_two,
      formatFixed_three_three, formatFixed_three_four]
    rfl
  · rw [kpPointsString]
    show String.intercalate semicolonStr
      [formatFixed 2 1 ++ commaStr ++ formatFixed 2 2,
       formatFixed 2 3 ++ commaStr ++ formatFixed 2 4] = _
    rw [formatFixed_two_one, formatFixed_two_two,
      formatFixed_two_three, formatFixed_two_four]
    rfl

/-- Image ids in first-seen order, as Python dict insertion order keeps
them while the merger groups annotations by `image_id`
(`src/merge_bbox_keypoints.py`, lines 49-55). -/
def firstSeen (l : List ℤ) : List ℤ :=
  l.foldl (fun acc a => if a ∈ acc then acc else acc ++ [a]) []

/-- Embedding of the whole merge loop of `src/merge_bbox_keypoints.py`
(lines 49-80): annotations of both files are grouped by `image_id`
(keypoints-file ids first, then new box-file ids), and each bucket is
cross-joined per category with the `annotation_id` counter threaded
through, starting at `1`. -/
def mergeAll (kps : List MergeKpAnn) (boxes : List MergeBoxAnn) : List MergedAnn :=
  let keys := firstSeen ((kps.map fun a => a.image_id) ++ (boxes.map fun a => a.image_id))
  (keys.foldl
    (fun (acc : List MergedAnn × ℤ) iid =>
      let r := mergeBucket iid (kps.filter fun a => a.image_id == iid)
        (boxes.filter fun a => a.image_id == iid) acc.2
      (acc.1 ++ r.1, r.2))
    ([], 1)).1

/-- One record of an `images` list (id, file name, width, height). -/
structure ImageRec where
  id : ℤ
  file_name : String
  width : ℕ
  height : ℕ
deriving DecidableEq

/-- The keypoints-side COCO file as the merger reads it
(`corrected_keypoints.json`); header fields are opaque payloads. -/
structure KpFile where
  info : String
  licenses : String
  categories : String
  images : List ImageRec
  annotations : List MergeKpAnn

/-- The box-side COCO file as the merger reads it
(`corrected_bbox.json`); header fields are opaque payloads. -/
structure BoxFile where
  info : String
  licenses : String
  categories : String
  images : List ImageRec
  annotations : List MergeBoxAnn

/-- The merger's output object (`src/merge_bbox_keypoints.py`, lines
82-90): exactly the two keys `images` and `annotations`, no COCO
header. -/
structure MergedFile where
  images : List ImageRec
  annotations : List MergedAnn

/-- Embedding of the construction of `merged_data`
(`src/merge_bbox_keypoints.py`, lines 82-90): `images` is taken from the
keypoints-side file, `annotations` is the merge of the two annotation
lists; nothing else of either file is consulted. -/
def mergeFiles (kpf : KpFile) (bf : BoxFile) : MergedFile :=
  { images := kpf.images
    annotations := mergeAll kpf.annotations bf.annotations }

/-- C9: the merger's output `images` list is exactly the keypoints-side
input's `images` list; the box-side file's `images`, `categories`, `info`
and `licenses` have no effect on the merged output (two box files with
the same annotations merge identically, whatever their other fields);
and the output consists of exactly the two fields `images` and
`annotations` (no COCO header), the latter depending only on the two
annotation lists. -/
theorem merger_output_shape (kpf : KpFile)
    (i1 l1 c1 i2 l2 c2 : String) (imgs1 imgs2 : List ImageRec)
    (anns : List MergeBoxAnn) :
    (mergeFiles kpf ⟨i1, l1, c1, imgs1, anns⟩).images = kpf.images ∧
    mergeFiles kpf ⟨i1, l1, c1, imgs1, anns⟩ =
      mergeFiles kpf ⟨i2, l2, c2, imgs2, anns⟩ ∧
    mergeFiles kpf ⟨i1, l1, c1, imgs1, anns⟩ =
      { images := kpf.images, annotations := mergeAll kpf.annotations anns } :=
  ⟨rfl, rfl, rfl⟩
